import Mathlib

/-!
Shallow embedding of the call/cc core in src/main.rs.

The program captures a continuation by copying the live native stack
window into a heap buffer together with a setjmp context, and restores it
by recursively growing the stack until it is deeper than the captured
window, overwriting the window with the saved bytes and longjmp-ing back.

Modelling choices:
- Byte memory is a total function from addresses (Nat) to byte values.
  The heap is a bump allocator (GC_malloc returns zero-initialized memory
  and never frees), matching the conservative-collector interface.
- The thread-local CONT_VAL cell (resumption slot) holds an optional
  dynamically typed value; Box with dyn Any is modelled by a small tagged
  sum AnyVal with a type tag for the downcast check.
- The stack-bounds probe (mod stack, an external collaborator) supplies
  the fixed origin and an approximate stack pointer; both are parameters.
- setjmp and longjmp are modelled by an explicit discriminator: the value
  setjmp evaluates to at an arrival of control (0 on the direct call,
  the longjmp code on a re-entry), as in the two-state machine of the
  design notes.
- restore_cont_jump forces extra stack consumption per recursive call
  (the 1000-byte local buffer plus the frame); the per-call growth is a
  positive parameter g, and the current consumption (origin minus stack
  pointer, the value of stack_size) is the parameter cur, growing by g
  on each recursion.
-/

namespace CallCC

/-- Type tags for the payload types the program uses (model of TypeId
for the downcast check at the call_cc site). -/
inductive Ty where
  | tU32
  | tI64
  | tUnit
deriving DecidableEq

/-- A dynamically typed payload value (model of Box with dyn Any). -/
inductive AnyVal where
  | vU32 (n : Nat)
  | vI64 (n : Int)
  | vUnit
deriving DecidableEq

/-- Dynamic type of a payload (model of the Any type query used by
downcast). -/
def AnyVal.ty : AnyVal → Ty
  | .vU32 _ => .tU32
  | .vI64 _ => .tI64
  | .vUnit => .tUnit

/-- Byte memory: address to byte value. -/
abbrev Mem := Nat → Nat

/-- Thread state: memory, the bump-allocator frontier of the GC heap,
and the thread-local resumption slot CONT_VAL. -/
structure TState where
  mem : Mem
  heapNext : Nat
  contVal : Option AnyVal

/-- libc memcpy with the nonoverlapping reading discipline the code
relies on: destination bytes come from the pre-call source bytes. -/
def memcpy (m : Mem) (dst src n : Nat) : Mem :=
  fun i => if dst ≤ i ∧ i < dst + n then m (src + (i - dst)) else m i

/-- Zero a range of memory (GC_malloc returns zero-initialized memory). -/
def zeroRange (m : Mem) (p n : Nat) : Mem :=
  fun i => if p ≤ i ∧ i < p + n then 0 else m i

/-- GC_malloc: bump allocation of size bytes, zero-initialized, never
freed. Returns the new state and the address of the allocation. -/
def GC_malloc (st : TState) (size : Nat) : TState × Nat :=
  ({ st with heapNext := st.heapNext + size
           , mem := zeroRange st.mem st.heapNext size },
   st.heapNext)

/-- The continuation record (struct Cont). state is the saved jump
context, identified here by the address of the record that holds it. -/
structure Cont where
  state : Nat
  csize : Nat
  cstart : Nat
  cend : Nat
  fresh : Bool
  cstack : Nat

/-- stack_size(): distance from the thread's fixed stack origin to the
approximate stack pointer (the stack grows down from origin). -/
def stack_size (origin sp : Nat) : Nat := origin - sp

/-- The direct-call part of make_continuation: compute the stack window
from the approximate stack pointer addr and the fixed origin, allocate
the record (contBytes is the platform-dependent byte size of Cont) and
the buffer, and copy the live window bytes into the buffer. -/
def make_continuation_fresh (contBytes : Nat) (st : TState)
    (addr origin : Nat) : TState × Cont :=
  let w : Nat × Nat × Nat :=
    if addr < origin then (origin - addr, addr, origin)
    else (addr - origin, origin, addr)
  let csize := w.1
  let cstart := w.2.1
  let cend := w.2.2
  let p1 := GC_malloc st contBytes
  let p2 := GC_malloc p1.1 csize
  let cstack := p2.2
  let st3 : TState := { p2.1 with mem := memcpy p2.1.mem cstack cstart csize }
  (st3, { state := p1.2, csize := csize, cstart := cstart, cend := cend
        , fresh := true, cstack := cstack })

/-- Panics the program can hit: unwrap of an empty CONT_VAL cell, and a
failed downcast of the payload at the call_cc site. -/
inductive Panic where
  | unwrapNone
  | downcastFail
deriving DecidableEq

/-- The nonzero-setjmp branch of make_continuation: take the payload out
of CONT_VAL (leaving None) and return it; unwrap of an empty cell is a
panic. -/
def capture_resumed (st : TState) : Except Panic (TState × AnyVal) :=
  match st.contVal with
  | some v => .ok ({ st with contVal := none }, v)
  | none => .error .unwrapNone

/-- The two outcomes of make_continuation as seen by call_cc. -/
inductive CaptureOutcome where
  | fresh (k : Cont)
  | resumed (v : AnyVal)

/-- make_continuation at one arrival of control: disc is the value the
setjmp in it evaluates to there (0 on the direct call, the longjmp code
on a re-entry). On the direct call the record is built and returned
fresh; on a re-entry the resumption slot is read and cleared. -/
def capture_arrival (contBytes : Nat) (st : TState) (disc : Nat)
    (addr origin : Nat) : Except Panic (TState × CaptureOutcome) :=
  if disc = 0 then
    let p := make_continuation_fresh contBytes st addr origin
    .ok (p.1, .fresh p.2)
  else
    match capture_resumed st with
    | .ok (st2, v) => .ok (st2, .resumed v)
    | .error e => .error e

/-- The configuration delivered by the longjmp at the end of the restore
trampoline: the record (now non-fresh), the thread state after the
window overwrite, and the discriminator passed to longjmp. The
trampoline has no other exit (its Rust return type is never). -/
structure JumpResult where
  k : Cont
  st : TState
  disc : Nat

/-- restore_cont_jump: recursively grow the stack (cur is the current
consumption, growing by g per call for the forced 1000-byte local
buffer and the frame) until it exceeds csize + 1024, then mark the
record non-fresh, copy the buffer back over the window and longjmp with
code 1. -/
def restore_cont_jump (k : Cont) (st : TState) (cur g : Nat)
    (hg : 0 < g) : JumpResult :=
  if _h : cur ≤ k.csize + 1024 then
    restore_cont_jump k st (cur + g) g hg
  else
    { k := { k with fresh := false }
    , st := { st with mem := memcpy st.mem k.cstart k.cstack k.csize }
    , disc := 1 }
termination_by k.csize + 1025 - cur
decreasing_by simp_wf; omega

/-- The recursion depth of restore_cont_jump: same guard, same per-call
growth, counting the recursive calls made before the jump. -/
def restore_cont_depth (k : Cont) (cur g : Nat) (hg : 0 < g) : Nat :=
  if _h : cur ≤ k.csize + 1024 then
    restore_cont_depth k (cur + g) g hg + 1
  else
    0
termination_by k.csize + 1025 - cur
decreasing_by simp_wf; omega

/-- restore_continuation: store the payload into CONT_VAL, then drive
the restore trampoline. -/
def restore_continuation (st : TState) (k : Cont) (v : AnyVal)
    (cur g : Nat) (hg : 0 < g) : JumpResult :=
  restore_cont_jump k { st with contVal := some v } cur g hg

/-- call_cont: invoke the continuation k with value v
(wrapper around restore_continuation). -/
def call_cont (st : TState) (k : Cont) (v : AnyVal) (cur g : Nat)
    (hg : 0 < g) : JumpResult :=
  restore_continuation st k v cur g hg

/-- What one arrival at the call_cc site steps to: a normal return of a
value, the re-restore branch taken on a non-fresh record seen on the Ok
path (which diverges into the trampoline again), or a panic. -/
inductive CallCCStep where
  | ret (st : TState) (v : AnyVal)
  | rejumpStale (k : Cont)
  | panicked (p : Panic)

/-- The body of call_cc after make_continuation: on Ok run proc if the
record is fresh, else re-restore it; on Err downcast the payload to T,
panicking if the dynamic type does not match. -/
def call_cc_dispatch (T : Ty) (proc : Cont → AnyVal) :
    Except Panic (TState × CaptureOutcome) → CallCCStep
  | .error p => .panicked p
  | .ok (st, .fresh k) =>
      if k.fresh then .ret st (proc k) else .rejumpStale k
  | .ok (st, .resumed v) =>
      if v.ty = T then .ret st v else .panicked .downcastFail

/-- call_cc on its direct call: make_continuation's setjmp evaluates to
0, then dispatch. -/
def call_cc_entry (T : Ty) (proc : Cont → AnyVal) (contBytes : Nat)
    (st : TState) (addr origin : Nat) : CallCCStep :=
  call_cc_dispatch T proc (capture_arrival contBytes st 0 addr origin)

/-- One invocation of a captured record with payload v, followed by the
re-entry of the call_cc site the jump lands in: call_cont stores v and
drives the trampoline, the longjmp re-enters make_continuation with the
nonzero discriminator, and call_cc dispatches the Err outcome. addr and
origin are the capture site's probe readings (unused on this path). -/
def call_cc_resumption (T : Ty) (proc : Cont → AnyVal) (contBytes : Nat)
    (st : TState) (k : Cont) (v : AnyVal) (cur g : Nat) (hg : 0 < g)
    (addr origin : Nat) : CallCCStep :=
  let j := call_cont st k v cur g hg
  call_cc_dispatch T proc (capture_arrival contBytes j.st j.disc addr origin)

/-- Wrapping 32-bit addition (the driver adds two u32 values). -/
def u32Add (a b : Nat) : Nat := (a + b) % 4294967296

/-- The driver's printed expression: 100 + (value of the call_cc site). -/
def main_sum (r : Nat) : Nat := u32Add 100 r

/-- The arguments of one restore_cont_jump call (thread state, current
stack consumption, positive per-call growth). -/
structure RestoreArgs where
  st : TState
  cur : Nat
  g : Nat
  hg : 0 < g

/-- Apply a sequence of restores to a record, each producing the record
the jump delivers. -/
def foldRestore (k : Cont) : List RestoreArgs → Cont
  | [] => k
  | a :: rest => foldRestore (restore_cont_jump k a.st a.cur a.g a.hg).k rest

/-- A user procedure for concrete instances: ignores the record. -/
def procU : Cont → AnyVal := fun _ => AnyVal.vUnit

/-- A concrete thread state for concrete instances. -/
def st0 : TState := { mem := fun i => i, heapNext := 2000, contVal := none }

/-- A concrete record with an empty window. -/
def K0 : Cont :=
  { state := 0, csize := 0, cstart := 0, cend := 0, fresh := true, cstack := 0 }

/-- A concrete record with an 8-byte window at 100 and buffer at 300. -/
def K1 : Cont :=
  { state := 0, csize := 8, cstart := 100, cend := 108, fresh := true
  , cstack := 300 }

/-- The restore trampoline always ends in the same jump configuration:
record marked non-fresh, window overwritten from the buffer, longjmp
code 1 — independently of the stack consumption it starts from. -/
theorem restore_cont_jump_eq (k : Cont) (st : TState) (g : Nat)
    (hg : 0 < g) (cur : Nat) :
    restore_cont_jump k st cur g hg =
      { k := { k with fresh := false }
      , st := { st with mem := memcpy st.mem k.cstart k.cstack k.csize }
      , disc := 1 } := by
  have aux : ∀ N cur, k.csize + 1025 - cur ≤ N →
      restore_cont_jump k st cur g hg =
        { k := { k with fresh := false }
        , st := { st with mem := memcpy st.mem k.cstart k.cstack k.csize }
        , disc := 1 } := by
    intro N
    induction N with
    | zero =>
        intro cur hN
        have hc : ¬ cur ≤ k.csize + 1024 := by omega
        rw [restore_cont_jump, dif_neg hc]
    | succ N ih =>
        intro cur hN
        by_cases hc : cur ≤ k.csize + 1024
        · rw [restore_cont_jump, dif_pos hc]
          exact ih (cur + g) (by omega)
        · rw [restore_cont_jump, dif_neg hc]
  exact aux (k.csize + 1025 - cur) cur le_rfl

/-- Depth upper bound: any n large enough that cur + n * g passes the
guard bounds the recursion depth. -/
theorem restore_cont_depth_le (k : Cont) (g : Nat) (hg : 0 < g) :
    ∀ n cur, k.csize + 1024 < cur + g * n →
      restore_cont_depth k cur g hg ≤ n := by
  intro n
  induction n with
  | zero =>
      intro cur hn
      have hc : ¬ cur ≤ k.csize + 1024 := by omega
      rw [restore_cont_depth, dif_neg hc]
  | succ n ih =>
      intro cur hn
      have hmul : g * (n + 1) = g * n + g := by ring
      by_cases hc : cur ≤ k.csize + 1024
      · rw [restore_cont_depth, dif_pos hc]
        have := ih (cur + g) (by omega)
        omega
      · rw [restore_cont_depth, dif_neg hc]
        omega

/-- After exactly the recursion depth many growth steps the guard
fails: the trampoline really reaches the jump. -/
theorem restore_cont_depth_reaches (k : Cont) (g : Nat) (hg : 0 < g) :
    ∀ N cur, k.csize + 1025 - cur ≤ N →
      k.csize + 1024 < cur + g * restore_cont_depth k cur g hg := by
  intro N
  induction N with
  | zero =>
      intro cur hN
      have hc : ¬ cur ≤ k.csize + 1024 := by omega
      rw [restore_cont_depth, dif_neg hc]
      omega
  | succ N ih =>
      intro cur hN
      by_cases hc : cur ≤ k.csize + 1024
      · rw [restore_cont_depth, dif_pos hc]
        have := ih (cur + g) (by omega)
        have hmul : g * (restore_cont_depth k (cur + g) g hg + 1)
            = g * restore_cont_depth k (cur + g) g hg + g := by ring
        omega
      · rw [restore_cont_depth, dif_neg hc]
        omega

/-- The record make_continuation builds, in closed form. -/
theorem make_continuation_fresh_cont (contBytes : Nat) (st : TState)
    (addr origin : Nat) :
    (make_continuation_fresh contBytes st addr origin).2 =
      { state := st.heapNext
      , csize := max addr origin - min addr origin
      , cstart := min addr origin
      , cend := max addr origin
      , fresh := true
      , cstack := st.heapNext + contBytes } := by
  by_cases hao : addr < origin <;>
    simp [make_continuation_fresh, GC_malloc, hao]
  · rw [Nat.max_eq_right (by omega), Nat.min_eq_left (by omega)]
    omega
  · rw [Nat.max_eq_left (by omega), Nat.min_eq_right (by omega)]
    omega

/-- The heap frontier after make_continuation: record bytes plus
exactly the window size for the buffer. -/
theorem make_continuation_fresh_heapNext (contBytes : Nat) (st : TState)
    (addr origin : Nat) :
    (make_continuation_fresh contBytes st addr origin).1.heapNext =
      st.heapNext + contBytes + (max addr origin - min addr origin) := by
  by_cases hao : addr < origin <;>
    simp [make_continuation_fresh, GC_malloc, hao]
  · rw [Nat.max_eq_right (by omega), Nat.min_eq_left (by omega)]
  · rw [Nat.max_eq_left (by omega), Nat.min_eq_right (by omega)]

/-- Memory after make_continuation: two zero-initialized allocations,
then the window bytes copied into the buffer. -/
theorem make_continuation_fresh_mem (contBytes : Nat) (st : TState)
    (addr origin : Nat) :
    (make_continuation_fresh contBytes st addr origin).1.mem =
      memcpy
        (zeroRange (zeroRange st.mem st.heapNext contBytes)
          (st.heapNext + contBytes) (max addr origin - min addr origin))
        (st.heapNext + contBytes) (min addr origin)
        (max addr origin - min addr origin) := by
  by_cases hao : addr < origin <;>
    simp [make_continuation_fresh, GC_malloc, hao]
  · rw [Nat.max_eq_right (by omega), Nat.min_eq_left (by omega)]
  · rw [Nat.max_eq_left (by omega), Nat.min_eq_right (by omega)]

/-- make_continuation does not touch the resumption slot. -/
theorem make_continuation_fresh_contVal (contBytes : Nat) (st : TState)
    (addr origin : Nat) :
    (make_continuation_fresh contBytes st addr origin).1.contVal =
      st.contVal := by
  by_cases hao : addr < origin <;>
    simp [make_continuation_fresh, GC_malloc, hao]

/-- A record with fresh set to false stays non-fresh under any sequence
of restores. -/
theorem foldRestore_nonfresh :
    ∀ (args : List RestoreArgs) (k : Cont), k.fresh = false →
      (foldRestore k args).fresh = false := by
  intro args
  induction args with
  | nil => intro k hk; exact hk
  | cons a rest ih =>
      intro k hk
      rw [foldRestore]
      apply ih
      rw [restore_cont_jump_eq]

/-- C2: for every capture the computed window satisfies start ≤ end,
size = end - start = |origin - sp| with the smaller address as start
regardless of stack growth direction, the heap buffer is allocated with
exactly size bytes (the frontier advances by the record bytes plus
exactly csize), and the buffer is filled by copying exactly the bytes
of the window. The hypothesis places the stack below the heap frontier,
as the separate collector-backed heap guarantees. -/
theorem make_continuation_window_correct (contBytes : Nat) (st : TState)
    (addr origin : Nat) (hdisj : max addr origin ≤ st.heapNext) :
    (make_continuation_fresh contBytes st addr origin).2.cstart ≤
      (make_continuation_fresh contBytes st addr origin).2.cend
    ∧ (make_continuation_fresh contBytes st addr origin).2.csize =
      (make_continuation_fresh contBytes st addr origin).2.cend -
        (make_continuation_fresh contBytes st addr origin).2.cstart
    ∧ (make_continuation_fresh contBytes st addr origin).2.csize =
        max addr origin - min addr origin
    ∧ (make_continuation_fresh contBytes st addr origin).2.cstart =
        min addr origin
    ∧ (make_continuation_fresh contBytes st addr origin).1.heapNext =
        st.heapNext + contBytes +
          (make_continuation_fresh contBytes st addr origin).2.csize
    ∧ (∀ i, i < (make_continuation_fresh contBytes st addr origin).2.csize →
        (make_continuation_fresh contBytes st addr origin).1.mem
            ((make_continuation_fresh contBytes st addr origin).2.cstack + i)
          = st.mem
            ((make_continuation_fresh contBytes st addr origin).2.cstart + i)) := by
  have hk := make_continuation_fresh_cont contBytes st addr origin
  have hh := make_continuation_fresh_heapNext contBytes st addr origin
  have hm := make_continuation_fresh_mem contBytes st addr origin
  refine ⟨?_, ?_, ?_, ?_, ?_, ?_⟩
  · simp only [hk]
    omega
  · simp only [hk]
  · simp only [hk]
  · simp only [hk]
  · simp only [hk, hh]
  · intro i hi
    simp only [hk] at hi ⊢
    simp only [hm, memcpy, zeroRange]
    split_ifs <;> first | omega | (congr 1; omega)

/-- C2 at a concrete capture: heap frontier 2000, origin 500, stack
pointer 400, identity memory contents. -/
theorem make_continuation_window_correct_witness :
    max 400 500 ≤ st0.heapNext ∧
    ((make_continuation_fresh 16 st0 400 500).2.cstart ≤
      (make_continuation_fresh 16 st0 400 500).2.cend
    ∧ (make_continuation_fresh 16 st0 400 500).2.csize =
      (make_continuation_fresh 16 st0 400 500).2.cend -
        (make_continuation_fresh 16 st0 400 500).2.cstart
    ∧ (make_continuation_fresh 16 st0 400 500).2.csize =
        max 400 500 - min 400 500
    ∧ (make_continuation_fresh 16 st0 400 500).2.cstart = min 400 500
    ∧ (make_continuation_fresh 16 st0 400 500).1.heapNext =
        st0.heapNext + 16 + (make_continuation_fresh 16 st0 400 500).2.csize
    ∧ (∀ i, i < (make_continuation_fresh 16 st0 400 500).2.csize →
        (make_continuation_fresh 16 st0 400 500).1.mem
            ((make_continuation_fresh 16 st0 400 500).2.cstack + i)
          = st0.mem ((make_continuation_fresh 16 st0 400 500).2.cstart + i))) :=
  ⟨by decide, make_continuation_window_correct 16 st0 400 500 (by decide)⟩

/-- C4: the restore trampoline recurses on the same record exactly when
the current stack consumption is below the record's csize plus the
fixed safety margin (the guard cur ≤ csize + 1024, i.e. cur < csize +
1025, a margin of about 1 KB); otherwise it proceeds to overwrite the
window and jump; and it never returns to its caller — its only exit is
the longjmp, always with code 1. -/
theorem restore_cont_jump_recursion_policy (k : Cont) (st : TState)
    (cur g : Nat) (hg : 0 < g) :
    (cur < k.csize + 1025 →
      restore_cont_jump k st cur g hg = restore_cont_jump k st (cur + g) g hg)
    ∧ (¬ cur < k.csize + 1025 →
      restore_cont_jump k st cur g hg =
        { k := { k with fresh := false }
        , st := { st with mem := memcpy st.mem k.cstart k.cstack k.csize }
        , disc := 1 })
    ∧ (restore_cont_jump k st cur g hg).disc = 1 := by
  refine ⟨?_, ?_, ?_⟩
  · intro hc
    conv_lhs => rw [restore_cont_jump]
    rw [dif_pos (by omega)]
  · intro hc
    rw [restore_cont_jump, dif_neg (by omega)]
  · rw [restore_cont_jump_eq]

/-- C4 at a concrete record and consumption: the 8-byte window of K1
with consumption 0 and growth 2000. -/
theorem restore_cont_jump_recursion_policy_witness :
    ((0 : Nat) < K1.csize + 1025 →
      restore_cont_jump K1 st0 0 2000 (by decide) =
        restore_cont_jump K1 st0 (0 + 2000) 2000 (by decide))
    ∧ (¬ (0 : Nat) < K1.csize + 1025 →
      restore_cont_jump K1 st0 0 2000 (by decide) =
        { k := { K1 with fresh := false }
        , st := { st0 with
                    mem := memcpy st0.mem K1.cstart K1.cstack K1.csize }
        , disc := 1 })
    ∧ (restore_cont_jump K1 st0 0 2000 (by decide)).disc = 1 :=
  restore_cont_jump_recursion_policy K1 st0 0 2000 (by decide)

/-- C5: when the trampoline reaches sufficient depth, it marks the
record non-fresh, copies exactly csize bytes from the buffer back over
exactly the [cstart, cend) window — memory outside the window is
untouched by the copy — and performs the jump with a nonzero
discriminator. hw is the window invariant cend = cstart + csize
established at capture. -/
theorem restore_cont_jump_overwrite (k : Cont) (st : TState)
    (cur g : Nat) (hg : 0 < g) (hw : k.cend = k.cstart + k.csize) :
    (restore_cont_jump k st cur g hg).k = { k with fresh := false }
    ∧ (restore_cont_jump k st cur g hg).disc ≠ 0
    ∧ (∀ i, k.cstart ≤ i → i < k.cend →
        (restore_cont_jump k st cur g hg).st.mem i =
          st.mem (k.cstack + (i - k.cstart)))
    ∧ (∀ i, i < k.cstart ∨ k.cend ≤ i →
        (restore_cont_jump k st cur g hg).st.mem i = st.mem i)
    ∧ (restore_cont_jump k st cur g hg).st.contVal = st.contVal
    ∧ (restore_cont_jump k st cur g hg).st.heapNext = st.heapNext := by
  rw [restore_cont_jump_eq]
  refine ⟨rfl, Nat.one_ne_zero, ?_, ?_, rfl, rfl⟩
  · intro i h1 h2
    simp only [memcpy]
    rw [if_pos ⟨h1, by omega⟩]
  · intro i h
    simp only [memcpy]
    rw [if_neg (by omega)]

/-- C5 at a concrete record: K1's 8-byte window [100, 108) with buffer
at 300, identity memory. -/
theorem restore_cont_jump_overwrite_witness :
    K1.cend = K1.cstart + K1.csize ∧
    ((restore_cont_jump K1 st0 0 2000 (by decide)).k =
        { K1 with fresh := false }
    ∧ (restore_cont_jump K1 st0 0 2000 (by decide)).disc ≠ 0
    ∧ (∀ i, K1.cstart ≤ i → i < K1.cend →
        (restore_cont_jump K1 st0 0 2000 (by decide)).st.mem i =
          st0.mem (K1.cstack + (i - K1.cstart)))
    ∧ (∀ i, i < K1.cstart ∨ K1.cend ≤ i →
        (restore_cont_jump K1 st0 0 2000 (by decide)).st.mem i = st0.mem i)
    ∧ (restore_cont_jump K1 st0 0 2000 (by decide)).st.contVal = st0.contVal
    ∧ (restore_cont_jump K1 st0 0 2000 (by decide)).st.heapNext
        = st0.heapNext) :=
  ⟨by decide, restore_cont_jump_overwrite K1 st0 0 2000 (by decide) (by decide)⟩

/-- C6: trampoline termination. Every recursive call consumes g more
stack than the previous one, and the recursion depth is at most
(csize + 1024 + g) / g = ceil((csize + 1025) / g) — window size plus
the margin of 1025 ≈ 1 KB over the per-call growth. After exactly that
many growth steps the guard fails, and the trampoline's value is the
one the jump at that depth delivers. -/
theorem restore_cont_depth_bound (k : Cont) (st : TState) (cur g : Nat)
    (hg : 0 < g) :
    restore_cont_depth k cur g hg ≤ (k.csize + 1024 + g) / g
    ∧ k.csize + 1024 < cur + g * restore_cont_depth k cur g hg
    ∧ restore_cont_jump k st cur g hg =
        restore_cont_jump k st (cur + g * restore_cont_depth k cur g hg) g hg := by
  refine ⟨?_, ?_, ?_⟩
  · apply restore_cont_depth_le
    have h1 := Nat.div_add_mod (k.csize + 1024 + g) g
    have h2 : (k.csize + 1024 + g) % g < g := Nat.mod_lt _ hg
    omega
  · exact restore_cont_depth_reaches k g hg (k.csize + 1025 - cur) cur le_rfl
  · rw [restore_cont_jump_eq, restore_cont_jump_eq]

/-- C6 at a concrete record: empty window, growth 1000 per call, depth
bounded by (0 + 1024 + 1000) / 1000 = 2. -/
theorem restore_cont_depth_bound_witness :
    restore_cont_depth K0 0 1000 (by decide) ≤ (K0.csize + 1024 + 1000) / 1000
    ∧ K0.csize + 1024 < 0 + 1000 * restore_cont_depth K0 0 1000 (by decide)
    ∧ restore_cont_jump K0 st0 0 1000 (by decide) =
        restore_cont_jump K0 st0
          (0 + 1000 * restore_cont_depth K0 0 1000 (by decide)) 1000
          (by decide) :=
  restore_cont_depth_bound K0 st0 0 1000 (by decide)

/-- C9: a record is fresh from creation until the first restore reaches
the overwrite-and-jump step and is never fresh again: the fold of any
sequence of restores over a newly captured record is fresh exactly when
the sequence is empty, while restores may continue unboundedly. -/
theorem cont_fresh_lifecycle (contBytes : Nat) (st : TState)
    (addr origin : Nat) (args : List RestoreArgs) :
    (foldRestore (make_continuation_fresh contBytes st addr origin).2
        args).fresh = true
      ↔ args = [] := by
  cases args with
  | nil =>
      rw [foldRestore, make_continuation_fresh_cont]
      simp
  | cons a rest =>
      rw [foldRestore]
      have hf := foldRestore_nonfresh rest
        (restore_cont_jump (make_continuation_fresh contBytes st addr origin).2
          a.st a.cur a.g a.hg).k
        (by rw [restore_cont_jump_eq])
      simp [hf]

/-- C3: resumption-slot round trip. Invoking a record with payload v
stores v into the thread's resumption slot before driving the restore
trampoline (the trampoline leaves the slot alone), and the capture call
reached by the jump retrieves exactly that payload, clears the slot —
leaving it empty — and returns it as the Resumed outcome. -/
theorem restore_continuation_slot_roundtrip (st : TState) (k : Cont)
    (v : AnyVal) (cur g : Nat) (hg : 0 < g) :
    (call_cont st k v cur g hg).st.contVal = some v
    ∧ capture_resumed (call_cont st k v cur g hg).st =
        .ok ({ (call_cont st k v cur g hg).st with contVal := none }, v)
    ∧ ({ (call_cont st k v cur g hg).st with
           contVal := none } : TState).contVal = none := by
  unfold call_cont restore_continuation
  rw [restore_cont_jump_eq]
  exact ⟨rfl, rfl, rfl⟩

/-- C3 at a concrete invocation: payload 7 through record K0 from
state st0. -/
theorem restore_continuation_slot_roundtrip_witness :
    (call_cont st0 K0 (AnyVal.vU32 7) 0 2000 (by decide)).st.contVal =
        some (AnyVal.vU32 7)
    ∧ capture_resumed (call_cont st0 K0 (AnyVal.vU32 7) 0 2000
          (by decide)).st =
        .ok ({ (call_cont st0 K0 (AnyVal.vU32 7) 0 2000 (by decide)).st with
                 contVal := none }, AnyVal.vU32 7)
    ∧ ({ (call_cont st0 K0 (AnyVal.vU32 7) 0 2000 (by decide)).st with
           contVal := none } : TState).contVal = none :=
  restore_continuation_slot_roundtrip st0 K0 (AnyVal.vU32 7) 0 2000 (by decide)

/-- C7: on the Resumed outcome of a call_cc site with result type T, a
payload whose dynamic type matches T is returned as the combinator's
result, and a payload whose type does not match is a fatal downcast
panic — no silent coercion and no recoverable error. -/
theorem call_cc_resumed_type_check (T : Ty) (proc : Cont → AnyVal)
    (st : TState) (v : AnyVal) :
    (v.ty = T →
      call_cc_dispatch T proc (.ok (st, .resumed v)) = .ret st v)
    ∧ (v.ty ≠ T →
      call_cc_dispatch T proc (.ok (st, .resumed v)) =
        .panicked .downcastFail) := by
  constructor
  · intro h
    simp [call_cc_dispatch, h]
  · intro h
    simp [call_cc_dispatch, h]

/-- C7 at concrete payloads: a u32 payload matches the u32 site and is
returned; a unit payload does not match and panics fatally. -/
theorem call_cc_resumed_type_check_witness :
    ((AnyVal.vU32 5).ty = Ty.tU32 ∧
      call_cc_dispatch Ty.tU32 procU (.ok (st0, .resumed (AnyVal.vU32 5))) =
        .ret st0 (AnyVal.vU32 5))
    ∧ (AnyVal.vUnit.ty ≠ Ty.tU32 ∧
      call_cc_dispatch Ty.tU32 procU (.ok (st0, .resumed AnyVal.vUnit)) =
        .panicked .downcastFail) :=
  ⟨⟨rfl, (call_cc_resumed_type_check Ty.tU32 procU st0 (AnyVal.vU32 5)).1 rfl⟩,
   ⟨by decide,
    (call_cc_resumed_type_check Ty.tU32 procU st0 AnyVal.vUnit).2 (by decide)⟩⟩

/-- C8: on the Fresh outcome, call_cc invokes the user procedure with
the fresh record and returns the procedure's result as its own result;
the record a fresh capture delivers always has fresh = true, so the
branch that re-restores a non-fresh record on the Fresh path is never
taken. -/
theorem call_cc_fresh_path (T : Ty) (proc : Cont → AnyVal)
    (contBytes : Nat) (st : TState) (addr origin : Nat) :
    (make_continuation_fresh contBytes st addr origin).2.fresh = true
    ∧ call_cc_entry T proc contBytes st addr origin =
        .ret (make_continuation_fresh contBytes st addr origin).1
          (proc (make_continuation_fresh contBytes st addr origin).2) := by
  have hk := make_continuation_fresh_cont contBytes st addr origin
  constructor
  · rw [hk]
  · unfold call_cc_entry capture_arrival
    rw [if_pos rfl]
    simp [call_cc_dispatch, hk]

/-- C1: multi-shot resumption. For any state of the thread, any record
and any count of earlier invocations (both absorbed by the arbitrary st
and k), invoking the record with a payload v whose dynamic type is the
site's result type T makes the call_cc site evaluate to exactly v, the
window having been overwritten from the buffer and the slot cleared; in
particular the driver's surrounding expression 100 + result evaluates
to 200 when the resumed value is 100. -/
theorem call_cc_multishot_resumption (T : Ty) (proc : Cont → AnyVal)
    (contBytes : Nat) (st : TState) (k : Cont) (v : AnyVal)
    (cur g : Nat) (hg : 0 < g) (addr origin : Nat) (hty : v.ty = T) :
    call_cc_resumption T proc contBytes st k v cur g hg addr origin =
      .ret { mem := memcpy st.mem k.cstart k.cstack k.csize
           , heapNext := st.heapNext
           , contVal := none } v
    ∧ main_sum 100 = 200 := by
  constructor
  · unfold call_cc_resumption call_cont restore_continuation
    rw [restore_cont_jump_eq]
    simp [capture_arrival, capture_resumed, call_cc_dispatch, hty]
  · rfl

/-- C1 at the driver's Scenario A instance: resuming with the u32
payload 100 makes the site evaluate to 100 and the printed sum to
200. -/
theorem call_cc_multishot_resumption_witness :
    (AnyVal.vU32 100).ty = Ty.tU32
    ∧ (call_cc_resumption Ty.tU32 procU 16 st0 K1 (AnyVal.vU32 100) 0 2000
          (by decide) 400 500 =
        .ret { mem := memcpy st0.mem K1.cstart K1.cstack K1.csize
             , heapNext := st0.heapNext
             , contVal := none } (AnyVal.vU32 100)
      ∧ main_sum 100 = 200) :=
  ⟨rfl, call_cc_multishot_resumption Ty.tU32 procU 16 st0 K1 (AnyVal.vU32 100)
      0 2000 (by decide) 400 500 rfl⟩

/-- C10: the re-entered capture call unconditionally unwraps the slot,
so landing there with an empty slot aborts with the unwrap panic; but a
landing driven through restore_continuation — which writes the slot
before jumping — always finds the payload, so under that discipline the
panic branch is unreachable. -/
theorem capture_landing_unwrap_guard (st stp : TState) (k : Cont)
    (v : AnyVal) (cur g : Nat) (hg : 0 < g) :
    (st.contVal = none → capture_resumed st = .error .unwrapNone)
    ∧ capture_resumed (restore_continuation stp k v cur g hg).st =
        .ok ({ (restore_continuation stp k v cur g hg).st with
                 contVal := none }, v) := by
  constructor
  · intro h
    simp [capture_resumed, h]
  · unfold restore_continuation
    rw [restore_cont_jump_eq]
    rfl

/-- C10 at a concrete state: st0 has an empty slot and panics at the
landing, while an invocation of K0 with payload 7 from st0 lands with
the payload present. -/
theorem capture_landing_unwrap_guard_witness :
    (st0.contVal = none → capture_resumed st0 = .error .unwrapNone)
    ∧ capture_resumed (restore_continuation st0 K0 (AnyVal.vU32 7) 0 2000
          (by decide)).st =
        .ok ({ (restore_continuation st0 K0 (AnyVal.vU32 7) 0 2000
                  (by decide)).st with contVal := none }, AnyVal.vU32 7) :=
  capture_landing_unwrap_guard st0 st0 K0 (AnyVal.vU32 7) 0 2000 (by decide)

end CallCC
